import Mathlib

/-!
Verification development for the resume-screening batch-extraction pipeline
(`resume_extractor.py`).  The Lean definitions below are a shallow embedding of
the pipeline logic: the schema field lists, the work-item enumeration filter,
the resume/checkpoint loading loop, the sample-size cap, the dispatch-and-collect
phase of the orchestrator, the CSV writer, the interrupt handler, the shared
rate gate, and the LLM retry loop.  External effects (the LLM call, the clock,
PDF reading) are passed in as explicit parameters (oracles / arrival times), so
every definition is executable.
-/

namespace ResumeExtractor

/-- A CSV row as read by `csv.DictReader` / produced by `resume_data.dict()`:
an association list from column name to cell value.  New records are modelled
already in serialized (string-valued) form, since rows written and re-read
through the CSV layer are string-valued. -/
abbrev Row := List (String × String)

/-- Key recovery for a row: `row["resume_filename"]`.  `none` models the
`KeyError` raised when the column is absent. -/
def keyOf (r : Row) : Option String := r.lookup "resume_filename"

/-- The 55 fields of the `ResumeData` pydantic model, in class-declaration
order (`resume_extractor.py` lines 54-147). -/
def schemaFields : List String :=
  ["resume_filename", "candidate_name", "email", "github_link", "linkedin_link",
   "country", "city",
   "college_education_years", "highest_degree", "bachelors_university",
   "graduate_university", "university_tier", "overall_world_ranking",
   "cs_world_ranking", "bachelors_gpa", "masters_gpa",
   "estimated_job_level", "programming_experience_years", "companies_worked",
   "company_tier", "cs_internships",
   "javascript_skill_level", "python_skill_level",
   "react_strength", "typescript_strength", "nextjs_strength", "tailwind_strength",
   "api_design_strength", "cloud_skill_level", "cloud_experience_years",
   "aws_services_experience", "database_technologies",
   "ai_experience_years", "llm_skill_level", "llm_experience_years",
   "ai_tools_experience", "llm_api_experience",
   "git_strength", "agile_strength",
   "algorithms_strength", "system_design_strength",
   "startup_experience_strength", "open_source_strength", "leadership_strength",
   "autonomy_indicators",
   "academic_strength", "cs_strength", "industry_strength", "fullstack_strength",
   "opensource_strength", "accomplishments_strength", "overall_score",
   "accomplishment_1", "accomplishment_2", "accomplishment_3"]

/-- The fixed `fieldnames` column list of `_save_results`
(`resume_extractor.py` lines 747-768), used for the header and the cell order
of every success-CSV write (checkpoint temp file, final output, interrupted
file). -/
def fieldnames : List String :=
  ["resume_filename", "candidate_name", "email", "github_link", "linkedin_link",
   "country", "city", "estimated_job_level", "programming_experience_years",
   "ai_experience_years",
   "college_education_years", "highest_degree", "bachelors_university",
   "graduate_university",
   "university_tier", "overall_world_ranking", "cs_world_ranking",
   "bachelors_gpa", "masters_gpa",
   "companies_worked", "company_tier",
   "javascript_skill_level", "python_skill_level", "cloud_skill_level",
   "llm_skill_level",
   "cs_internships", "cloud_experience_years", "llm_experience_years",
   "react_strength", "typescript_strength", "nextjs_strength",
   "api_design_strength",
   "tailwind_strength", "git_strength", "agile_strength",
   "aws_services_experience", "database_technologies", "ai_tools_experience",
   "llm_api_experience",
   "startup_experience_strength", "open_source_strength", "leadership_strength",
   "autonomy_indicators",
   "algorithms_strength", "system_design_strength",
   "academic_strength", "cs_strength", "industry_strength", "fullstack_strength",
   "opensource_strength", "accomplishments_strength", "overall_score",
   "accomplishment_1", "accomplishment_2", "accomplishment_3"]

/-- The field names enumerated by the strengthened ("CRITICAL") instruction
appended to the prompt after a validation failure
(`resume_extractor.py` line 493). -/
def strictPromptFieldList : List String :=
  ["resume_filename", "candidate_name", "email", "github_link", "linkedin_link",
   "country", "city", "estimated_job_level", "programming_experience_years",
   "ai_experience_years", "college_education_years", "highest_degree",
   "bachelors_university", "graduate_university", "university_tier",
   "overall_world_ranking", "cs_world_ranking", "bachelors_gpa", "masters_gpa",
   "companies_worked", "company_tier", "javascript_skill_level",
   "python_skill_level", "cloud_skill_level", "llm_skill_level",
   "cs_internships", "cloud_experience_years", "llm_experience_years",
   "react_strength", "typescript_strength", "nextjs_strength",
   "api_design_strength", "tailwind_strength", "git_strength", "agile_strength",
   "aws_services_experience", "database_technologies", "ai_tools_experience",
   "llm_api_experience", "startup_experience_strength", "open_source_strength",
   "leadership_strength", "autonomy_indicators", "algorithms_strength",
   "system_design_strength", "academic_strength", "cs_strength",
   "industry_strength", "fullstack_strength", "opensource_strength",
   "accomplishments_strength", "overall_score", "accomplishment_1",
   "accomplishment_2", "accomplishment_3"]

/-- The field count stated by the strengthened instruction:
"EXACT field count required: 50 fields" (`resume_extractor.py` line 495). -/
def strictPromptStatedCount : Nat := 50

/-- Enumeration predicate of `process_all_resumes` (lines 598-601):
`file.endswith(".pdf") and "resume" in file.lower()`.  `endswith` is a
case-sensitive suffix test on the raw name; the substring test runs on the
lowercased name.  `Char.toLower` models `str.lower` (they agree on ASCII
filenames). -/
def isResumeFile (name : String) : Bool :=
  decide (".pdf".data <:+ name.data) &&
  decide ("resume".data <:+: name.data.map Char.toLower)

/-- One PDF file found by `os.walk`: the directory it was found in and its
bare filename.  `os.path.join(root, name)` / `os.path.basename` become the
`path` projection and the `name` field (walk filenames never contain a
separator). -/
structure PdfFile where
  root : String
  name : String
deriving DecidableEq

/-- Full path of a walked file, `os.path.join(root, file)`. -/
def PdfFile.path (f : PdfFile) : String := f.root ++ "/" ++ f.name

/-- The `os.walk` enumeration loop (lines 598-601): the walk is given as the
list of `(root, files)` pairs it yields; every file passing `isResumeFile`
becomes a work item, in walk order. -/
def findPdfs (walk : List (String × List String)) : List PdfFile :=
  walk.flatMap fun rf => (rf.2.filter isResumeFile).map fun n => ⟨rf.1, n⟩

/-- Result of replaying the loading loop over the rows of a pre-existing CSV. -/
structure LoadOutcome where
  rows : List Row
  keys : List String
  ok : Bool
deriving DecidableEq

/-- The row-loading loop of `process_all_resumes` (lines 575-579 and 588-592):
`for row in reader: results.append(row); already_processed.add(row["resume_filename"])`.
Each row is appended to `results` first; if the key column is then missing the
`KeyError` aborts the loop (modelled by `ok := false`), so the failing row is
retained in `rows` but contributes no key, and later rows are never read. -/
def loadLoop : List Row → LoadOutcome
  | [] => ⟨[], [], true⟩
  | r :: rs =>
    match keyOf r with
    | none => ⟨[r], [], false⟩
    | some k =>
      let t := loadLoop rs
      ⟨r :: t.rows, k :: t.keys, t.ok⟩

/-- Startup state recovery (lines 571-595): if the final output file exists it
is read (the temp file is then never consulted, even if reading fails); else
the temp file is read if it exists; else the run starts empty.  The exception
handler turns any read failure into a logged warning, keeping whatever rows
and keys were accumulated before the failure.  Keys form a Python `set`;
`dedup` models its distinct-membership and cardinality. -/
def loadState (finalFile tmpFile : Option (List Row)) : List Row × List String :=
  match finalFile with
  | some rows => ((loadLoop rows).rows, (loadLoop rows).keys.dedup)
  | none =>
    match tmpFile with
    | some rows => ((loadLoop rows).rows, (loadLoop rows).keys.dedup)
    | none => ([], [])

/-- The sample-size cap (lines 610-616).  the Python check `if sample_size:` is falsy
for both `None` and `0`, so a limit of `0` applies no cap; otherwise
`remaining = sample_size - len(already_processed)` is computed in `int`
arithmetic and the work list is truncated to it when positive, else emptied. -/
def capWork (files : List PdfFile) (processedCount : Nat) (sampleSize : Option Int) :
    List PdfFile :=
  match sampleSize with
  | none => files
  | some n =>
    if n = 0 then files
    else
      let remaining : Int := n - processedCount
      if remaining > 0 then files.take remaining.toNat else []

/-- An error-report row (lines 663-668).  The wall-clock `error_time` column
is omitted (impure); the reason is the default message used when the worker
returned no record.  A worker that raises instead produces a different reason
string, which no claim depends on. -/
structure ErrorRec where
  key : String
  path : String
  reason : String
deriving DecidableEq

/-- Observable outcome of one `process_all_resumes` run (no interrupt):
the work items submitted to the pool, the in-memory `results` list at the end,
the error rows accumulated this run, and the rows written to the final output
file (`none` when the run returned early or `results` was empty, leaving the
file untouched). -/
structure RunOutcome where
  dispatched : List PdfFile
  results : List Row
  errors : List ErrorRec
  finalWrite : Option (List Row)
deriving DecidableEq

/-- The orchestration of `process_all_resumes` (lines 557-707) for an
uninterrupted run.  `oracle` abstracts the end-to-end processing of a
file by one worker (`process_resume_parallel_safe`): `some row` on success, `none` on any
failure.  `order` is the completion order in which `as_completed` yields the
futures; theorems that need it constrain it to be a permutation of the
dispatched list.  Periodic checkpointing is not replayed here (it rewrites the
temp file through the same `saveResults` below and does not affect the final
state). -/
def runPipeline (finalFile tmpFile : Option (List Row))
    (walk : List (String × List String)) (sampleSize : Option Int)
    (oracle : PdfFile → Option Row) (order : List PdfFile) : RunOutcome :=
  let st := loadState finalFile tmpFile
  let priorRows := st.1
  let processedKeys := st.2
  let pdfFiles := findPdfs walk
  let toProcess := pdfFiles.filter fun f => decide (f.name ∉ processedKeys)
  let capped := capWork toProcess processedKeys.length sampleSize
  if capped.isEmpty then
    { dispatched := [], results := priorRows, errors := [], finalWrite := none }
  else
    let newRows := order.filterMap oracle
    let newErrors := (order.filter fun f => (oracle f).isNone).map fun f =>
      { key := f.name, path := f.path,
        reason := "LLM parsing failed - check resume format and content" }
    let results := priorRows ++ newRows
    { dispatched := capped, results := results, errors := newErrors,
      finalWrite := if results.isEmpty then none else some results }

/-- The success-CSV writer `_save_results` (lines 742-773): with an empty
result list it writes nothing; otherwise it emits the fixed header followed by
one line per row, each cell looked up by column name (`csv.DictWriter` writes
`restval` — the empty string here — for a missing key, and raises `ValueError`
for a key outside `fieldnames`, modelled as `none`). -/
def saveResults (results : List Row) : Option (List (List String)) :=
  if results.isEmpty then none
  else if results.all fun r => r.all fun kv => decide (kv.1 ∈ fieldnames) then
    some (fieldnames :: results.map fun r => fieldnames.map fun f => (r.lookup f).getD "")
  else none

/-- The checkpoint write of line 676: `_save_results(results, output + ".tmp")`. -/
def checkpointWrite (output : String) (results : List Row) :
    String × Option (List (List String)) :=
  (output ++ ".tmp", saveResults results)

/-- The final write of line 696: `_save_results(results, output)`. -/
def finalFileWrite (output : String) (results : List Row) :
    String × Option (List (List String)) :=
  (output, saveResults results)

/-- The interrupted-snapshot write of line 688:
`_save_results(results, output + ".interrupted")`. -/
def interruptedWrite (output : String) (results : List Row) :
    String × Option (List (List String)) :=
  (output ++ ".interrupted", saveResults results)

/-- What the `KeyboardInterrupt` handler performs. -/
structure InterruptOutcome where
  rowWrites : List (String × List Row)
  errorWrites : List (String × List ErrorRec)
  exitCode : Nat
deriving DecidableEq

/-- The `except KeyboardInterrupt` branch of `process_all_resumes`
(lines 683-690): close the progress bar, and if the accumulated `results` list
is non-empty write it to `<output>.interrupted`, then `sys.exit(1)`.  The
branch contains no `_save_errors` call, so the handler itself writes no error
file regardless of the accumulated `errors` list. -/
def handleInterrupt (output : String) (results : List Row) (errors : List ErrorRec) :
    InterruptOutcome :=
  { rowWrites := if results.isEmpty then [] else [(output ++ ".interrupted", results)]
  , errorWrites := []
  , exitCode := 1 }

/-- One pass through `_rate_limited_request` (lines 272-279), executed under
`rate_limit_lock`: read the clock (`now`), sleep `delay - (now - last)` if the
gap since the recorded admission is short, and record the new admission time.
The clock is modelled as exact: `time.time()` after the sleep returns the wake
time `now + (delay - (now - last))`; a real clock only reads later, which can
only widen the admission gap. -/
def rateAdmit (delay last now : ℚ) : ℚ :=
  if now - last < delay then now + (delay - (now - last)) else now

/-- Admission timestamps of a sequence of calls through the rate gate.  The
single mutex serializes the callers, so the gate is a fold over their arrival
times, threading `last_request_time` (initially 0 from `__init__`). -/
def admissions (delay : ℚ) : ℚ → List ℚ → List ℚ
  | _, [] => []
  | last, now :: rest =>
    let t := rateAdmit delay last now
    t :: admissions delay t rest

/-- Events observable from the retry loop of `parse_resume_with_llm`:
an API attempt (with the current attempt index and the number of times the
strict suffix has been appended to the prompt) or a backoff sleep. -/
inductive LLMEv where
  | att (attempt strictCount : Nat)
  | wait (secs : Nat)
deriving DecidableEq

/-- Whether an event is an API attempt. -/
def LLMEv.isAtt : LLMEv → Bool
  | .att _ _ => true
  | .wait _ => false

/-- Number of API attempts in a trace. -/
def countAtt (evs : List LLMEv) : Nat := (evs.filter LLMEv.isAtt).length

/-- The backoff sleeps of a trace, in order. -/
def waitsOf (evs : List LLMEv) : List Nat :=
  evs.filterMap fun e => match e with | .wait s => some s | _ => none

/-- Transient-error classification (lines 475-476): the exception text
contains "429", "rate limit" (case-insensitive), "500", or
"internal server error" (case-insensitive).  Checked before the validation
classification, so it takes precedence. -/
def isTransientErr (e : List Char) : Bool :=
  decide ("429".data <:+: e) ||
  decide ("rate limit".data <:+: e.map Char.toLower) ||
  decide ("500".data <:+: e) ||
  decide ("internal server error".data <:+: e.map Char.toLower)

/-- Validation-error classification (lines 486-487): the exception text
contains "tool call validation failed" or "Failed to call a function". -/
def isValidationErr (e : List Char) : Bool :=
  decide ("tool call validation failed".data <:+: e) ||
  decide ("Failed to call a function".data <:+: e)

/-- The retry loop `for attempt in range(3)` of `parse_resume_with_llm`
(lines 459-506).  `fuel` is the number of loop iterations remaining
(`3 - attempt`; the top-level call uses fuel 3, attempt 0).  `oracle` gives
the outcome of one `client.chat.completions.create` call as a function of the
attempt index and of how many times the strict suffix has been appended
(the internal `max_retries=2` of instructor is folded into the oracle).  A
transient error sleeps `10 * (attempt + 1)` and continues; a validation error
with `attempt < 2` appends the strict suffix and continues; any other error
re-raises into the outer handler, and loop exhaustion falls through — both
return no record. -/
def llmLoopAux {α : Type} (oracle : Nat → Nat → Except (List Char) α) :
    Nat → Nat → Nat → List LLMEv × Option α
  | 0, _, _ => ([], none)
  | fuel + 1, attempt, strictCount =>
    match oracle attempt strictCount with
    | .ok r => ([.att attempt strictCount], some r)
    | .error e =>
      if isTransientErr e then
        let t := llmLoopAux oracle fuel (attempt + 1) strictCount
        (.att attempt strictCount :: .wait (10 * (attempt + 1)) :: t.1, t.2)
      else if isValidationErr e && decide (attempt < 2) then
        let t := llmLoopAux oracle fuel (attempt + 1) (strictCount + 1)
        (.att attempt strictCount :: t.1, t.2)
      else
        ([.att attempt strictCount], none)

/-- One call to `parse_resume_with_llm`: the retry loop started at attempt 0
with the base prompt, returning the event trace and the record (if any). -/
def parseResumeWithLLM {α : Type} (oracle : Nat → Nat → Except (List Char) α) :
    List LLMEv × Option α :=
  llmLoopAux oracle 3 0 0

/-! Helper lemmas. -/

theorem rateAdmit_ge (delay last now : ℚ) : last + delay ≤ rateAdmit delay last now := by
  unfold rateAdmit
  split <;> linarith

theorem capWork_subset (files : List PdfFile) (c : Nat) (s : Option Int) :
    ∀ f ∈ capWork files c s, f ∈ files := by
  intro f hf
  cases s with
  | none => exact hf
  | some n =>
    simp only [capWork] at hf
    by_cases h0 : n = 0
    · simpa [h0] using hf
    · rw [if_neg h0] at hf
      split at hf
      · exact List.take_subset _ _ hf
      · simp at hf

/-! Theorems for the claims. -/

/-- C3: for every pair of consecutive calls admitted through the shared rate
gate — regardless of how many workers contend, since the single
`rate_limit_lock` serializes them into one arrival sequence — the gap between
the two recorded admission timestamps is at least the configured minimum
interval.  Admission only orders the gate; the calls themselves run
concurrently afterwards, which this statement does not constrain. -/
theorem c3_rate_floor (delay last : ℚ) (arrivals : List ℚ) :
    (admissions delay last arrivals).Chain' fun a b => delay ≤ b - a := by
  induction arrivals generalizing last with
  | nil => simp [admissions]
  | cons now rest ih =>
    rw [admissions]
    refine List.chain'_cons'.mpr ⟨?_, ih (rateAdmit delay last now)⟩
    intro y hy
    cases rest with
    | nil => simp [admissions] at hy
    | cons n2 r2 =>
      rw [admissions] at hy
      simp at hy
      subst hy
      have := rateAdmit_ge delay (rateAdmit delay last now) n2
      linarith

/-- C10: a file enumerated by the walk becomes a work item precisely when its
name ends with the case-sensitive suffix ".pdf" and its lowercased name
contains the substring "resume"; all other files are ignored. -/
theorem c10_enumeration_filter (walk : List (String × List String)) (f : PdfFile) :
    f ∈ findPdfs walk ↔
      ∃ p, p ∈ walk ∧ f.root = p.1 ∧ f.name ∈ p.2 ∧
        ".pdf".data <:+ f.name.data ∧
        "resume".data <:+: f.name.data.map Char.toLower := by
  unfold findPdfs
  simp only [List.mem_flatMap, List.mem_map, List.mem_filter, isResumeFile,
    Bool.and_eq_true, decide_eq_true_eq]
  constructor
  · rintro ⟨p, hp, n, ⟨hn, h1, h2⟩, rfl⟩
    exact ⟨p, hp, rfl, hn, h1, h2⟩
  · rintro ⟨p, hp, hroot, hn, h1, h2⟩
    refine ⟨p, hp, f.name, ⟨hn, h1, h2⟩, ?_⟩
    cases f
    simp at hroot
    rw [hroot]

/-- C10 witness: "john_resume.pdf" under root "d" is enumerated from a
directory also holding "scan.PDF" (wrong-case extension) and "notes.pdf"
(no "resume" substring), neither of which yields this work item. -/
theorem c10_enumeration_filter_witness :
    (⟨"d", "john_resume.pdf"⟩ : PdfFile) ∈
        findPdfs [("d", ["john_resume.pdf", "scan_resume.PDF", "notes.pdf"])] ∧
    findPdfs [("d", ["john_resume.pdf", "scan_resume.PDF", "notes.pdf"])]
        = [⟨"d", "john_resume.pdf"⟩] :=
  ⟨(c10_enumeration_filter [("d", ["john_resume.pdf", "scan_resume.PDF", "notes.pdf"])]
      ⟨"d", "john_resume.pdf"⟩).mpr
    ⟨("d", ["john_resume.pdf", "scan_resume.PDF", "notes.pdf"]), by decide, rfl,
      by decide, by decide, by decide⟩,
   by decide⟩

/-- C1: every work item the orchestrator submits to the pool has a key
(filename) outside the processed-key set recovered at startup from the
pre-existing final output file or temp file; such keys are filtered out
before dispatch. -/
theorem c1_at_most_once_dispatch (finalFile tmpFile : Option (List Row))
    (walk : List (String × List String)) (sampleSize : Option Int)
    (oracle : PdfFile → Option Row) (order : List PdfFile) (f : PdfFile)
    (hf : f ∈ (runPipeline finalFile tmpFile walk sampleSize oracle order).dispatched) :
    f.name ∉ (loadState finalFile tmpFile).2 := by
  simp only [runPipeline] at hf
  split at hf
  · simp at hf
  · simp only at hf
    have hsub := capWork_subset _ _ _ f hf
    have := List.mem_filter.mp hsub
    simpa using this.2

/-- C1 witness: with a prior output file holding key "old_resume.pdf" and a
directory holding that file plus "new_resume.pdf", the new file is dispatched
and its key is indeed absent from the recovered processed-key set. -/
theorem c1_at_most_once_dispatch_witness :
    (⟨"d", "new_resume.pdf"⟩ : PdfFile) ∈
      (runPipeline (some [[("resume_filename", "old_resume.pdf")]]) none
        [("d", ["old_resume.pdf", "new_resume.pdf"])] none (fun _ => none)
        [⟨"d", "new_resume.pdf"⟩]).dispatched ∧
    "new_resume.pdf" ∉
      (loadState (some [[("resume_filename", "old_resume.pdf")]]) none).2 :=
  ⟨by decide,
   c1_at_most_once_dispatch (some [[("resume_filename", "old_resume.pdf")]]) none
     [("d", ["old_resume.pdf", "new_resume.pdf"])] none (fun _ => none)
     [⟨"d", "new_resume.pdf"⟩] ⟨"d", "new_resume.pdf"⟩ (by decide)⟩

/-- C6 counterexample: a pre-existing final output file whose single row lacks
the `resume_filename` column makes key recovery fail, yet the run keeps the
partially-read row: the recovered state is `([row], ∅)`, not the claimed
"no prior state" `([], ∅)`. -/
theorem c6_counterexample :
    (loadLoop [[("candidate_name", "X")]]).ok = false ∧
    loadState (some [[("candidate_name", "X")]]) none
      = ([[("candidate_name", "X")]], []) := by decide

/-- C6 (amended): startup prefers the finalized output file when present (the
temp file is then never consulted, even if reading the final file fails), else
the temp file, recovering rows and keys; when the key of every row is recoverable
the whole file is recovered; when key recovery fails at some row the run
continues — it does not abort — but retains the rows read up to and including
the failing row (a possibly non-empty partial state) and the keys recovered
before it, rather than degrading to no prior state. -/
theorem c6_load_existing_amended :
    (∀ rows tmp, loadState (some rows) tmp
        = ((loadLoop rows).rows, (loadLoop rows).keys.dedup)) ∧
    (∀ rows, loadState none (some rows)
        = ((loadLoop rows).rows, (loadLoop rows).keys.dedup)) ∧
    loadState none none = ([], []) ∧
    (∀ rows : List Row, (∀ r ∈ rows, (keyOf r).isSome) →
        loadLoop rows = ⟨rows, rows.filterMap keyOf, true⟩) ∧
    (∀ (pre : List Row) (r : Row) (post : List Row),
        (∀ x ∈ pre, (keyOf x).isSome) → keyOf r = none →
        loadLoop (pre ++ r :: post) = ⟨pre ++ [r], pre.filterMap keyOf, false⟩) := by
  refine ⟨fun rows tmp => rfl, fun rows => rfl, rfl, ?_, ?_⟩
  · intro rows h
    induction rows with
    | nil => rfl
    | cons r rs ih =>
      obtain ⟨k, hk⟩ := Option.isSome_iff_exists.mp (h r (List.mem_cons_self r rs))
      have hrs := ih fun x hx => h x (List.mem_cons_of_mem r hx)
      simp [loadLoop, hk, hrs, List.filterMap_cons]
  · intro pre r post hpre hr
    induction pre with
    | nil => simp [loadLoop, hr]
    | cons x xs ih =>
      obtain ⟨k, hk⟩ := Option.isSome_iff_exists.mp (hpre x (List.mem_cons_self x xs))
      have hxs := ih fun y hy => hpre y (List.mem_cons_of_mem x hy)
      simp [loadLoop, hk, hxs, List.filterMap_cons]

/-- C6 witness: a well-formed one-row prior file is fully recovered, and a file
failing after one good row keeps that row plus the failing one. -/
theorem c6_load_existing_amended_witness :
    loadLoop [[("resume_filename", "a_resume.pdf")]]
      = ⟨[[("resume_filename", "a_resume.pdf")]], ["a_resume.pdf"], true⟩ ∧
    loadLoop [[("resume_filename", "a_resume.pdf")], [("candidate_name", "X")],
        [("resume_filename", "b_resume.pdf")]]
      = ⟨[[("resume_filename", "a_resume.pdf")], [("candidate_name", "X")]],
          ["a_resume.pdf"], false⟩ :=
  ⟨c6_load_existing_amended.2.2.2.1 [[("resume_filename", "a_resume.pdf")]]
      (by decide),
   c6_load_existing_amended.2.2.2.2 [[("resume_filename", "a_resume.pdf")]]
      [("candidate_name", "X")] [[("resume_filename", "b_resume.pdf")]]
      (by decide) (by decide)⟩

/-- C7 counterexample: at interrupt time with one accumulated error record and
no success rows, the handler writes nothing at all — and even with success
rows present it never writes the error records — so the accumulated
ErrorRecord part of the ResultSet is silently discarded, contrary to the
claim. -/
theorem c7_counterexample :
    (handleInterrupt "candidates.csv" []
        [⟨"a_resume.pdf", "d/a_resume.pdf",
          "LLM parsing failed - check resume format and content"⟩]).rowWrites = [] ∧
    (handleInterrupt "candidates.csv" []
        [⟨"a_resume.pdf", "d/a_resume.pdf",
          "LLM parsing failed - check resume format and content"⟩]).errorWrites = [] ∧
    (handleInterrupt "candidates.csv" [[("resume_filename", "b_resume.pdf")]]
        [⟨"a_resume.pdf", "d/a_resume.pdf",
          "LLM parsing failed - check resume format and content"⟩]).errorWrites = [] := by
  decide

/-- C7 (amended): on cooperative cancellation the orchestrator exits with the
distinct non-zero status 1 and, whenever the accumulated success-row list is
non-empty, snapshots it to the distinct `<output>.interrupted` path; with no
accumulated success rows nothing is written, and the accumulated error records
are never written by the interrupt handler (only a periodic checkpoint, if one
happened earlier, persists them). -/
theorem c7_interrupt_amended (output : String) (results : List Row)
    (errors : List ErrorRec) :
    (handleInterrupt output results errors).exitCode = 1 ∧
    (results ≠ [] → (handleInterrupt output results errors).rowWrites
        = [(output ++ ".interrupted", results)]) ∧
    (results = [] → (handleInterrupt output results errors).rowWrites = []) ∧
    (handleInterrupt output results errors).errorWrites = [] := by
  refine ⟨rfl, ?_, ?_, rfl⟩
  · intro hne
    simp [handleInterrupt, hne]
  · intro he
    simp [handleInterrupt, he]

/-- C7 witness: a concrete interrupt with one success row snapshots it to
`candidates.csv.interrupted` and exits with status 1. -/
theorem c7_interrupt_amended_witness :
    (handleInterrupt "candidates.csv" [[("resume_filename", "a_resume.pdf")]]
        []).exitCode = 1 ∧
    (handleInterrupt "candidates.csv" [[("resume_filename", "a_resume.pdf")]]
        []).rowWrites
      = [("candidates.csv" ++ ".interrupted", [[("resume_filename", "a_resume.pdf")]])] :=
  ⟨(c7_interrupt_amended "candidates.csv" [[("resume_filename", "a_resume.pdf")]] []).1,
   (c7_interrupt_amended "candidates.csv" [[("resume_filename", "a_resume.pdf")]] []).2.1
     (by decide)⟩

/-- C9 counterexample: with 5 keys already processed and `--sample 3`, zero
items are dispatched yet `len(processed_keys) + dispatched = 5 > 3`, refuting
the claimed inequality; and with `--sample 0` (a set limit not greater than
the 0 already-processed keys) the falsy-zero check skips the cap entirely, so
one new item IS dispatched instead of the claimed zero-item no-op. -/
theorem c9_counterexample :
    (3 : Int) < 5 + ((capWork [⟨"d", "f_resume.pdf"⟩] 5 (some 3)).length : Int) ∧
    (0 : Int) ≤ ((0 : Nat) : Int) ∧
    (runPipeline none none [("d", ["a_resume.pdf"])] (some 0)
        (fun _ => some [("resume_filename", "a_resume.pdf")])
        [⟨"d", "a_resume.pdf"⟩]).dispatched = [⟨"d", "a_resume.pdf"⟩] := by
  decide

/-- C9 (amended): when the sample limit is set to a non-zero value `n`, the
newly dispatched items are capped at `max 0 (n - processed)` — hence
`processed + dispatched ≤ n` whenever `processed ≤ n` — and if `n ≤ processed`
zero new items are dispatched; a limit of 0 is falsy in Python and is treated
as unset (no cap).  Whenever nothing is dispatched the run exits as a clean
no-op: nothing is submitted and the output file is left untouched. -/
theorem c9_sample_cap_amended :
    (∀ (files : List PdfFile) (processed : Nat) (n : Int), n ≠ 0 →
      ((capWork files processed (some n)).length : Int) ≤ max 0 (n - processed) ∧
      (n ≤ processed → capWork files processed (some n) = []) ∧
      (processed ≤ n →
        (processed : Int) + (capWork files processed (some n)).length ≤ n)) ∧
    (∀ files processed, capWork files processed (some 0) = files) ∧
    (∀ finalFile tmpFile walk sampleSize oracle order,
      (runPipeline finalFile tmpFile walk sampleSize oracle order).dispatched = [] →
      (runPipeline finalFile tmpFile walk sampleSize oracle order).finalWrite = none ∧
      (runPipeline finalFile tmpFile walk sampleSize oracle order).results
        = (loadState finalFile tmpFile).1) := by
  refine ⟨?_, ?_, ?_⟩
  · intro files processed n hn
    have hcap : ((capWork files processed (some n)).length : Int) ≤ max 0 (n - processed) := by
      simp only [capWork, if_neg hn]
      split
      · have h1 : (files.take (n - (processed : Int)).toNat).length
            ≤ (n - (processed : Int)).toNat := List.length_take_le _ files
        have h2 : (0 : Int) ≤ n - processed := by omega
        have := Int.toNat_of_nonneg h2
        omega
      · simp
    refine ⟨hcap, ?_, ?_⟩
    · intro hle
      simp only [capWork, if_neg hn]
      rw [if_neg]
      omega
    · intro hge
      have : max 0 (n - processed) = n - processed := by omega
      omega
  · intro files processed
    simp [capWork]
  · intro finalFile tmpFile walk sampleSize oracle order h
    simp only [runPipeline] at h ⊢
    split at h
    · simp_all only [runPipeline]
      constructor <;> rfl
    · simp only at h
      rename_i hcap
      simp only [List.isEmpty_eq_true] at hcap
      exact absurd h hcap

/-- C9 witness: with 2 keys processed and `--sample 5`, at most 3 of the 4
remaining files are dispatched, keeping `processed + dispatched ≤ 5`. -/
theorem c9_sample_cap_amended_witness :
    ((capWork [⟨"d", "a_resume.pdf"⟩, ⟨"d", "b_resume.pdf"⟩, ⟨"d", "c_resume.pdf"⟩,
        ⟨"d", "e_resume.pdf"⟩] 2 (some 5)).length : Int) ≤ max 0 (5 - 2) ∧
    ((2 : Nat) : Int) + (capWork [⟨"d", "a_resume.pdf"⟩, ⟨"d", "b_resume.pdf"⟩,
        ⟨"d", "c_resume.pdf"⟩, ⟨"d", "e_resume.pdf"⟩] 2 (some 5)).length ≤ 5 :=
  ⟨(c9_sample_cap_amended.1 [⟨"d", "a_resume.pdf"⟩, ⟨"d", "b_resume.pdf"⟩,
      ⟨"d", "c_resume.pdf"⟩, ⟨"d", "e_resume.pdf"⟩] 2 5 (by decide)).1,
   (c9_sample_cap_amended.1 [⟨"d", "a_resume.pdf"⟩, ⟨"d", "b_resume.pdf"⟩,
      ⟨"d", "c_resume.pdf"⟩, ⟨"d", "e_resume.pdf"⟩] 2 5 (by decide)).2.2 (by decide)⟩

/-- C8: every success-CSV write — the checkpoint temp file, the final output,
and the interrupted snapshot — goes through the single writer `saveResults`
with the one fixed `fieldnames` column list, a permutation of the 55 schema
fields; whenever a file is written its first line is the header row and each
data row lists the cells in exactly that fixed order. -/
theorem c8_fixed_columns_header (results : List Row)
    (hne : results ≠ [])
    (hkeys : ∀ r ∈ results, ∀ kv ∈ r, kv.1 ∈ fieldnames) :
    (∀ output : String,
      (checkpointWrite output results).2 = saveResults results ∧
      (finalFileWrite output results).2 = saveResults results ∧
      (interruptedWrite output results).2 = saveResults results) ∧
    saveResults results
      = some (fieldnames ::
          results.map fun r => fieldnames.map fun f => (r.lookup f).getD "") ∧
    (∀ g, saveResults results = some g →
      g.head? = some fieldnames ∧ g.length = results.length + 1) ∧
    fieldnames.Perm schemaFields ∧
    fieldnames.length = 55 := by
  have hempty : results.isEmpty = false := List.isEmpty_eq_false.mpr hne
  have hall : (results.all fun r => r.all fun kv => decide (kv.1 ∈ fieldnames)) = true := by
    rw [List.all_eq_true]
    intro r hr
    rw [List.all_eq_true]
    intro kv hkv
    exact decide_eq_true (hkeys r hr kv hkv)
  have hsave : saveResults results
      = some (fieldnames ::
          results.map fun r => fieldnames.map fun f => (r.lookup f).getD "") := by
    simp [saveResults, hempty, hall]
  refine ⟨fun output => ⟨rfl, rfl, rfl⟩, hsave, ?_, ?_, by decide⟩
  · intro g hg
    rw [hsave] at hg
    cases hg
    simp
  · decide

/-- C8 witness: a single concrete row writes as a header line followed by one
data line in the fixed column order. -/
theorem c8_fixed_columns_header_witness :
    saveResults [[("resume_filename", "a_resume.pdf")]]
      = some (fieldnames ::
          [[("resume_filename", "a_resume.pdf")]].map
            fun r => fieldnames.map fun f => (r.lookup f).getD "") ∧
    fieldnames.Perm schemaFields :=
  ⟨(c8_fixed_columns_header [[("resume_filename", "a_resume.pdf")]] (by decide)
      (by decide)).2.1,
   (c8_fixed_columns_header [[("resume_filename", "a_resume.pdf")]] (by decide)
      (by decide)).2.2.2.1⟩

/-! Lemmas on the LLM retry loop. -/

theorem countAtt_nil : countAtt ([] : List LLMEv) = 0 := rfl

theorem countAtt_att (a s : Nat) (l : List LLMEv) :
    countAtt (.att a s :: l) = countAtt l + 1 := by
  simp [countAtt, List.filter_cons, LLMEv.isAtt]

theorem countAtt_wait (w : Nat) (l : List LLMEv) :
    countAtt (.wait w :: l) = countAtt l := by
  simp [countAtt, List.filter_cons, LLMEv.isAtt]

theorem llmLoopAux_ok {α : Type} (oracle : Nat → Nat → Except (List Char) α)
    (fuel a s : Nat) (r : α) (ho : oracle a s = .ok r) :
    llmLoopAux oracle (fuel + 1) a s = ([.att a s], some r) := by
  simp [llmLoopAux, ho]

theorem llmLoopAux_transient {α : Type} (oracle : Nat → Nat → Except (List Char) α)
    (fuel a s : Nat) (e : List Char) (ho : oracle a s = .error e)
    (ht : isTransientErr e = true) :
    llmLoopAux oracle (fuel + 1) a s =
      (.att a s :: .wait (10 * (a + 1)) :: (llmLoopAux oracle fuel (a + 1) s).1,
       (llmLoopAux oracle fuel (a + 1) s).2) := by
  simp [llmLoopAux, ho, ht]

theorem llmLoopAux_validation {α : Type} (oracle : Nat → Nat → Except (List Char) α)
    (fuel a s : Nat) (e : List Char) (ha : a < 2) (ho : oracle a s = .error e)
    (ht : isTransientErr e = false) (hv : isValidationErr e = true) :
    llmLoopAux oracle (fuel + 1) a s =
      (.att a s :: (llmLoopAux oracle fuel (a + 1) (s + 1)).1,
       (llmLoopAux oracle fuel (a + 1) (s + 1)).2) := by
  simp [llmLoopAux, ho, ht, hv, ha]

theorem llmLoopAux_fatal {α : Type} (oracle : Nat → Nat → Except (List Char) α)
    (fuel a s : Nat) (e : List Char) (ho : oracle a s = .error e)
    (ht : isTransientErr e = false)
    (hv : isValidationErr e = false ∨ 2 ≤ a) :
    llmLoopAux oracle (fuel + 1) a s = ([.att a s], none) := by
  cases hv with
  | inl hv => simp [llmLoopAux, ho, ht, hv]
  | inr ha =>
    have : ¬a < 2 := by omega
    simp [llmLoopAux, ho, ht, this]

theorem countAtt_llmLoopAux_le {α : Type} (oracle : Nat → Nat → Except (List Char) α) :
    ∀ fuel a s, countAtt (llmLoopAux oracle fuel a s).1 ≤ fuel := by
  intro fuel
  induction fuel with
  | zero => intro a s; simp [llmLoopAux, countAtt]
  | succ n ih =>
    intro a s
    cases ho : oracle a s with
    | ok r =>
      rw [llmLoopAux_ok oracle n a s r ho, countAtt_att, countAtt_nil]
      omega
    | error e =>
      by_cases ht : isTransientErr e
      · rw [llmLoopAux_transient oracle n a s e ho ht]
        rw [countAtt_att, countAtt_wait]
        have := ih (a + 1) s
        omega
      · by_cases hv : isValidationErr e = true ∧ a < 2
        · rw [llmLoopAux_validation oracle n a s e hv.2 ho (by simpa using ht) hv.1]
          rw [countAtt_att]
          have := ih (a + 1) (s + 1)
          omega
        · have hv2 : isValidationErr e = false ∨ 2 ≤ a := by
            by_cases h : isValidationErr e = true
            · right
              have : ¬a < 2 := fun hlt => hv ⟨h, hlt⟩
              omega
            · left; simpa using h
          rw [llmLoopAux_fatal oracle n a s e ho (by simpa using ht) hv2]
          rw [countAtt_att, countAtt_nil]
          omega

/-- C4: for every LLM parsing call, a throttling/transient-server failure
(the exception text signals a rate limit / 429 / 500 / internal server error)
makes the client sleep `10 * (attempt + 1)` seconds and retry; at most 3
attempts are ever made; an attempt failing with any unclassified error returns
no record at once; and a call whose every attempt is throttled exhausts its
retries, returns no record, and slept exactly the backoffs 10, 20, 30. -/
theorem c4_retry_backoff (α : Type) :
    (∀ oracle : Nat → Nat → Except (List Char) α,
        countAtt (parseResumeWithLLM oracle).1 ≤ 3) ∧
    (∀ (oracle : Nat → Nat → Except (List Char) α) (fuel a s : Nat) (e : List Char),
        oracle a s = .error e → isTransientErr e = true →
        llmLoopAux oracle (fuel + 1) a s =
          (.att a s :: .wait (10 * (a + 1)) :: (llmLoopAux oracle fuel (a + 1) s).1,
           (llmLoopAux oracle fuel (a + 1) s).2)) ∧
    (∀ (oracle : Nat → Nat → Except (List Char) α) (fuel a s : Nat) (e : List Char),
        oracle a s = .error e → isTransientErr e = false → isValidationErr e = false →
        llmLoopAux oracle (fuel + 1) a s = ([.att a s], none)) ∧
    (∀ oracle : Nat → Nat → Except (List Char) α,
        (∀ a s, ∃ e, oracle a s = .error e ∧ isTransientErr e = true) →
        (parseResumeWithLLM oracle).2 = none ∧
        waitsOf (parseResumeWithLLM oracle).1 = [10, 20, 30]) := by
  refine ⟨?_, ?_, ?_, ?_⟩
  · intro oracle
    exact countAtt_llmLoopAux_le oracle 3 0 0
  · intro oracle fuel a s e ho ht
    exact llmLoopAux_transient oracle fuel a s e ho ht
  · intro oracle fuel a s e ho ht hv
    exact llmLoopAux_fatal oracle fuel a s e ho ht (Or.inl hv)
  · intro oracle h
    obtain ⟨e0, h0, t0⟩ := h 0 0
    obtain ⟨e1, h1, t1⟩ := h 1 0
    obtain ⟨e2, h2, t2⟩ := h 2 0
    have step0 := llmLoopAux_transient oracle 2 0 0 e0 h0 t0
    have step1 := llmLoopAux_transient oracle 1 1 0 e1 h1 t1
    have step2 := llmLoopAux_transient oracle 0 2 0 e2 h2 t2
    unfold parseResumeWithLLM
    rw [show (3 : Nat) = 2 + 1 from rfl, step0,
        show (2 : Nat) = 1 + 1 from rfl, step1,
        show (1 : Nat) = 0 + 1 from rfl, step2]
    constructor
    · rfl
    · simp [waitsOf, llmLoopAux]

/-- C4 witness: an oracle that always reports a 429 exhausts its 3 attempts,
sleeping 10, 20 and 30 seconds, and returns no record. -/
theorem c4_retry_backoff_witness :
    (parseResumeWithLLM (fun _ _ => Except.error "429".data : Nat → Nat → Except (List Char) Nat)).2
        = none ∧
    waitsOf (parseResumeWithLLM
        (fun _ _ => Except.error "429".data : Nat → Nat → Except (List Char) Nat)).1
      = [10, 20, 30] :=
  (c4_retry_backoff Nat).2.2.2 (fun _ _ => Except.error "429".data)
    (fun _ _ => ⟨"429".data, rfl, by decide⟩)

/-- C5 counterexample: with validation failures on attempts 0 and 1 and a
success on attempt 2, the reinforced ("strict") retry happens twice — the
strict suffix is appended at both failures, so attempt 2 runs with it appended
twice — and the call still succeeds rather than being terminal after a single
reinforced retry.  Moreover the strengthened instruction states the count 50
("EXACT field count required: 50 fields") while enumerating 55 field names, so
it does not state the exact expected field count of the 55-field schema. -/
theorem c5_counterexample :
    parseResumeWithLLM
        (fun attempt _ =>
          if attempt < 2 then Except.error "tool call validation failed".data
          else Except.ok 7 : Nat → Nat → Except (List Char) Nat)
      = ([.att 0 0, .att 1 1, .att 2 2], some 7) ∧
    strictPromptStatedCount = 50 ∧
    strictPromptFieldList.length = 55 ∧
    schemaFields.length = 55 := by
  refine ⟨by decide, rfl, by decide, by decide⟩

/-- C5 (amended): a schema-validation failure on any attempt before the last
(attempt index < 2) re-issues the request with the strengthened instruction —
so the reinforced retry can happen up to twice, once per pre-final validation
failure, not exactly once — while a validation failure on the final attempt is
terminal (no record).  The strengthened instruction does enumerate every
required field name of the 55-field schema, but the field count it states is
50, not the actual 55 of the schema. -/
theorem c5_schema_retry_amended :
    (∀ f ∈ schemaFields, f ∈ strictPromptFieldList) ∧
    strictPromptFieldList.length = 55 ∧
    strictPromptStatedCount = 50 ∧
    strictPromptStatedCount ≠ schemaFields.length ∧
    (∀ (α : Type) (oracle : Nat → Nat → Except (List Char) α) (fuel a s : Nat)
        (e : List Char),
        a < 2 → oracle a s = .error e → isTransientErr e = false →
        isValidationErr e = true →
        llmLoopAux oracle (fuel + 1) a s =
          (.att a s :: (llmLoopAux oracle fuel (a + 1) (s + 1)).1,
           (llmLoopAux oracle fuel (a + 1) (s + 1)).2)) ∧
    (∀ (α : Type) (oracle : Nat → Nat → Except (List Char) α) (fuel s : Nat)
        (e : List Char),
        oracle 2 s = .error e → isTransientErr e = false →
        llmLoopAux oracle (fuel + 1) 2 s = ([.att 2 s], none)) := by
  refine ⟨by decide, by decide, rfl, by decide, ?_, ?_⟩
  · intro α oracle fuel a s e ha ho ht hv
    exact llmLoopAux_validation oracle fuel a s e ha ho ht hv
  · intro α oracle fuel s e ho ht
    exact llmLoopAux_fatal oracle fuel 2 s e ho ht (Or.inr (le_refl 2))

/-- C5 amended witness: the schema field `overall_score` appears in the
enumerated strict-prompt list, and a concrete validation failure at attempt 0
re-issues with the strict suffix appended once. -/
theorem c5_schema_retry_amended_witness :
    "overall_score" ∈ strictPromptFieldList ∧
    llmLoopAux
        (fun _ _ => Except.error "tool call validation failed".data :
          Nat → Nat → Except (List Char) Nat) (2 + 1) 0 0
      = (.att 0 0 ::
          (llmLoopAux (fun _ _ => Except.error "tool call validation failed".data :
            Nat → Nat → Except (List Char) Nat) 2 1 1).1,
         (llmLoopAux (fun _ _ => Except.error "tool call validation failed".data :
            Nat → Nat → Except (List Char) Nat) 2 1 1).2) :=
  ⟨c5_schema_retry_amended.1 "overall_score" (by decide),
   c5_schema_retry_amended.2.2.2.2.1 Nat
     (fun _ _ => Except.error "tool call validation failed".data) 2 0 0
     "tool call validation failed".data (by decide) rfl (by decide) (by decide)⟩

/-! Lemmas on the orchestrator run. -/

theorem loadLoop_all_some (rows : List Row) (h : ∀ r ∈ rows, (keyOf r).isSome) :
    loadLoop rows = ⟨rows, rows.filterMap keyOf, true⟩ := by
  induction rows with
  | nil => rfl
  | cons r rs ih =>
    obtain ⟨k, hk⟩ := Option.isSome_iff_exists.mp (h r (List.mem_cons_self r rs))
    have hrs := ih fun x hx => h x (List.mem_cons_of_mem r hx)
    simp [loadLoop, hk, hrs, List.filterMap_cons]

theorem keys_of_success (oracle : PdfFile → Option Row) :
    ∀ l : List PdfFile,
      (∀ f ∈ l, ∃ r, oracle f = some r ∧ keyOf r = some f.name) →
      (l.filterMap oracle).filterMap keyOf = l.map PdfFile.name := by
  intro l
  induction l with
  | nil => intro _; rfl
  | cons f fs ih =>
    intro h
    obtain ⟨r, ho, hk⟩ := h f (List.mem_cons_self f fs)
    have hfs := ih fun g hg => h g (List.mem_cons_of_mem f hg)
    simp [List.filterMap_cons, ho, hk, hfs]

theorem runPipeline_noop (finalFile tmpFile : Option (List Row))
    (walk : List (String × List String)) (sample : Option Int)
    (oracle : PdfFile → Option Row) (order : List PdfFile)
    (h : capWork ((findPdfs walk).filter fun f =>
          decide (f.name ∉ (loadState finalFile tmpFile).2))
        (loadState finalFile tmpFile).2.length sample = []) :
    runPipeline finalFile tmpFile walk sample oracle order =
      { dispatched := [], results := (loadState finalFile tmpFile).1, errors := [],
        finalWrite := none } := by
  simp only [runPipeline]
  rw [if_pos (List.isEmpty_eq_true.mpr h)]

theorem runPipeline_run (finalFile tmpFile : Option (List Row))
    (walk : List (String × List String)) (sample : Option Int)
    (oracle : PdfFile → Option Row) (order : List PdfFile)
    (h : capWork ((findPdfs walk).filter fun f =>
          decide (f.name ∉ (loadState finalFile tmpFile).2))
        (loadState finalFile tmpFile).2.length sample ≠ []) :
    runPipeline finalFile tmpFile walk sample oracle order =
      { dispatched := capWork ((findPdfs walk).filter fun f =>
            decide (f.name ∉ (loadState finalFile tmpFile).2))
          (loadState finalFile tmpFile).2.length sample,
        results := (loadState finalFile tmpFile).1 ++ order.filterMap oracle,
        errors := (order.filter fun f => (oracle f).isNone).map fun f =>
          { key := f.name, path := f.path,
            reason := "LLM parsing failed - check resume format and content" },
        finalWrite :=
          if ((loadState finalFile tmpFile).1 ++ order.filterMap oracle).isEmpty
          then none
          else some ((loadState finalFile tmpFile).1 ++ order.filterMap oracle) } := by
  simp only [runPipeline]
  rw [if_neg fun hc => h (List.isEmpty_eq_true.mp hc)]

/-- C2: running the pipeline twice against the same output path with the same
inputs — distinct input keys, every item succeeding, each produced row keyed
by its work item — yields a final file with exactly one row per input key,
the rows of the first run preserved verbatim (the second run dispatches nothing and
leaves the file untouched); and in every run — whatever pre-existing final or
temp file it starts from — either nothing is dispatched and the in-memory rows
are exactly the previously-persisted rows with the file left untouched, or the
rows are exactly the previously-persisted rows followed, in completion order,
by the successes of this run, and the final file is written with exactly that
union, so no prior row is overwritten or reordered. -/
theorem c2_idempotent_resume (walk : List (String × List String))
    (oracle : PdfFile → Option Row) (order1 : List PdfFile)
    (hne : findPdfs walk ≠ [])
    (hnodup : ((findPdfs walk).map PdfFile.name).Nodup)
    (hsucc : ∀ f ∈ findPdfs walk, ∃ r, oracle f = some r ∧ keyOf r = some f.name)
    (hperm : order1.Perm (findPdfs walk)) :
    (∀ (finalF tmpF : Option (List Row)) (sample : Option Int) (order : List PdfFile),
        ((runPipeline finalF tmpF walk sample oracle order).dispatched = [] ∧
         (runPipeline finalF tmpF walk sample oracle order).results
           = (loadState finalF tmpF).1 ∧
         (runPipeline finalF tmpF walk sample oracle order).finalWrite = none) ∨
        ((runPipeline finalF tmpF walk sample oracle order).results
           = (loadState finalF tmpF).1 ++ order.filterMap oracle ∧
         (runPipeline finalF tmpF walk sample oracle order).finalWrite
           = if ((loadState finalF tmpF).1 ++ order.filterMap oracle).isEmpty
             then none
             else some ((loadState finalF tmpF).1 ++ order.filterMap oracle))) ∧
    (runPipeline none none walk none oracle order1).finalWrite
        = some (order1.filterMap oracle) ∧
    (order1.filterMap oracle).length = (findPdfs walk).length ∧
    ((order1.filterMap oracle).filterMap keyOf).Perm
        ((findPdfs walk).map PdfFile.name) ∧
    ((order1.filterMap oracle).filterMap keyOf).Nodup ∧
    (∀ order2 : List PdfFile,
        (runPipeline (some (order1.filterMap oracle)) none walk none oracle
            order2).dispatched = [] ∧
        (runPipeline (some (order1.filterMap oracle)) none walk none oracle
            order2).finalWrite = none ∧
        ((runPipeline (some (order1.filterMap oracle)) none walk none oracle
            order2).finalWrite).getD (order1.filterMap oracle)
          = order1.filterMap oracle) := by
  have hsucc1 : ∀ f ∈ order1, ∃ r, oracle f = some r ∧ keyOf r = some f.name :=
    fun f hf => hsucc f (hperm.mem_iff.mp hf)
  have hkeys1 : (order1.filterMap oracle).filterMap keyOf = order1.map PdfFile.name :=
    keys_of_success oracle order1 hsucc1
  have horder_ne : order1 ≠ [] := by
    intro h
    apply hne
    have := hperm.length_eq
    rw [h] at this
    exact List.length_eq_zero.mp this.symm
  have hrows_ne : order1.filterMap oracle ≠ [] := by
    intro h
    rw [h] at hkeys1
    exact horder_ne (List.map_eq_nil_iff.mp hkeys1.symm)
  have hkperm : ((order1.filterMap oracle).filterMap keyOf).Perm
      ((findPdfs walk).map PdfFile.name) := by
    rw [hkeys1]
    exact hperm.map PdfFile.name
  have hknodup : ((order1.filterMap oracle).filterMap keyOf).Nodup :=
    (hkperm.nodup_iff).mpr hnodup
  have hlen : (order1.filterMap oracle).length = (findPdfs walk).length := by
    have h1 : ((order1.filterMap oracle).filterMap keyOf).length
        ≤ (order1.filterMap oracle).length := List.length_filterMap_le _ _
    have h2 : (order1.filterMap oracle).length ≤ order1.length :=
      List.length_filterMap_le _ _
    have h3 : ((order1.filterMap oracle).filterMap keyOf).length = order1.length := by
      rw [hkeys1, List.length_map]
    have h4 := hperm.length_eq
    omega
  -- the first run: fresh state, everything dispatched, all successes written
  have hcap1 : capWork ((findPdfs walk).filter fun f =>
        decide (f.name ∉ (loadState none none).2))
      (loadState none none).2.length none = findPdfs walk := by
    simp [loadState, capWork]
  have hrun1 := runPipeline_run none none walk none oracle order1
    (by rw [hcap1]; exact hne)
  rw [hcap1] at hrun1
  -- the second run: all keys recovered, nothing left to dispatch
  have hallkeys : ∀ r ∈ order1.filterMap oracle, (keyOf r).isSome := by
    intro r hr
    obtain ⟨f, hf, ho⟩ := List.mem_filterMap.mp hr
    obtain ⟨r2, ho2, hk2⟩ := hsucc1 f hf
    rw [ho2] at ho
    cases ho
    rw [hk2]
    rfl
  have hload2 : loadState (some (order1.filterMap oracle)) none
      = (order1.filterMap oracle, (order1.filterMap oracle).filterMap keyOf) := by
    simp [loadState, loadLoop_all_some _ hallkeys, List.dedup_eq_self.mpr hknodup]
  have hfilter2 : ((findPdfs walk).filter fun f =>
      decide (f.name ∉ (loadState (some (order1.filterMap oracle)) none).2)) = [] := by
    rw [List.filter_eq_nil_iff]
    intro f hf
    rw [hload2]
    simp only [decide_eq_true_eq, Decidable.not_not]
    rw [hkeys1]
    exact List.mem_map_of_mem PdfFile.name (hperm.mem_iff.mpr hf)
  have hcap2 : capWork ((findPdfs walk).filter fun f =>
        decide (f.name ∉ (loadState (some (order1.filterMap oracle)) none).2))
      (loadState (some (order1.filterMap oracle)) none).2.length none = [] := by
    rw [hfilter2]
    rfl
  have hrun2 := fun order2 =>
    runPipeline_noop (some (order1.filterMap oracle)) none walk none oracle order2 hcap2
  refine ⟨?_, ?_, hlen, hkperm, hknodup, ?_⟩
  · intro finalF tmpF sample order
    by_cases h : capWork ((findPdfs walk).filter fun f =>
        decide (f.name ∉ (loadState finalF tmpF).2))
        (loadState finalF tmpF).2.length sample = []
    · left
      rw [runPipeline_noop finalF tmpF walk sample oracle order h]
      exact ⟨rfl, rfl, rfl⟩
    · right
      rw [runPipeline_run finalF tmpF walk sample oracle order h]
      exact ⟨rfl, rfl⟩
  · rw [hrun1]
    simp only [loadState, List.nil_append]
    rw [if_neg fun hc => hrows_ne (List.isEmpty_eq_true.mp hc)]
  · intro order2
    rw [hrun2 order2]
    exact ⟨rfl, rfl, rfl⟩

/-- C2 witness: two resume PDFs under one directory, an oracle producing a
correctly-keyed row for each; the first run writes both rows, the second run
dispatches nothing and the file keeps exactly one row per input key; and a
resumed run starting from a prior file holding only the first row appends
exactly the success of the remaining item after the prior row and writes that
union as the final file. -/
theorem c2_idempotent_resume_witness :
    (runPipeline none none [("d", ["a_resume.pdf", "b_resume.pdf"])] none
        (fun f => some [("resume_filename", f.name)])
        [⟨"d", "a_resume.pdf"⟩, ⟨"d", "b_resume.pdf"⟩]).finalWrite
      = some [[("resume_filename", "a_resume.pdf")],
              [("resume_filename", "b_resume.pdf")]] ∧
    (runPipeline
        (some [[("resume_filename", "a_resume.pdf")],
               [("resume_filename", "b_resume.pdf")]]) none
        [("d", ["a_resume.pdf", "b_resume.pdf"])] none
        (fun f => some [("resume_filename", f.name)]) []).dispatched = [] ∧
    (runPipeline
        (some [[("resume_filename", "a_resume.pdf")],
               [("resume_filename", "b_resume.pdf")]]) none
        [("d", ["a_resume.pdf", "b_resume.pdf"])] none
        (fun f => some [("resume_filename", f.name)]) []).finalWrite = none ∧
    (runPipeline (some [[("resume_filename", "a_resume.pdf")]]) none
        [("d", ["a_resume.pdf", "b_resume.pdf"])] none
        (fun f => some [("resume_filename", f.name)])
        [⟨"d", "b_resume.pdf"⟩]).results
      = [[("resume_filename", "a_resume.pdf")],
         [("resume_filename", "b_resume.pdf")]] ∧
    (runPipeline (some [[("resume_filename", "a_resume.pdf")]]) none
        [("d", ["a_resume.pdf", "b_resume.pdf"])] none
        (fun f => some [("resume_filename", f.name)])
        [⟨"d", "b_resume.pdf"⟩]).finalWrite
      = some [[("resume_filename", "a_resume.pdf")],
              [("resume_filename", "b_resume.pdf")]] := by
  have h := c2_idempotent_resume [("d", ["a_resume.pdf", "b_resume.pdf"])]
    (fun f => some [("resume_filename", f.name)])
    [⟨"d", "a_resume.pdf"⟩, ⟨"d", "b_resume.pdf"⟩]
    (by decide) (by decide)
    (fun f _ => ⟨[("resume_filename", f.name)], rfl, rfl⟩)
    (by decide)
  have hres := (h.1 (some [[("resume_filename", "a_resume.pdf")]]) none none
      [⟨"d", "b_resume.pdf"⟩]).resolve_left fun hl => absurd hl.1 (by decide)
  exact ⟨h.2.1, (h.2.2.2.2.2 []).1, (h.2.2.2.2.2 []).2.1,
    hres.1.trans (by decide), hres.2.trans (by decide)⟩

end ResumeExtractor
